import Mathlib

/-!
Shallow embedding of the exam-session core of the SubjectSaar TestApp class
(source: the TestApp constructor, getDefaultConfig, validateData, loadQ,
selOpt, toggleReview, nav, goToQ, startTimer, stopTimers, subTest and
calcResults). JavaScript numbers that matter here are exact decimals and
integer timestamps, so they are modelled as rationals and naturals; a JS
value that may be null or undefined is an Option.
-/

attribute [local semireducible] Rat.add Rat.sub Rat.mul Rat.inv Rat.ofScientific

namespace TestApp

/-- A question of the loaded payload: rich-text strings plus the
correct_option_id, which may be absent (undefined) in the JSON. -/
structure Question where
  question : String
  options : List String
  correct_option_id : Option Int
  comp : Option String
  solution : Option String
deriving Repr, DecidableEq

/-- A fully populated config object, as produced by getDefaultConfig. -/
structure Config where
  testName : String
  testId : String
  durationMinutes : Rat
  totalMarks : Rat
  marksPerQuestion : Rat
  negativeMarking : Rat
  nameDisplay : String
deriving Repr, DecidableEq

/-- getDefaultConfig(qs): totalQ = qs ? qs.length : 0, and the literal
object with durationMinutes = totalMarks = totalQ || 34. -/
def getDefaultConfig (qs : Option (List Question)) : Config :=
  let totalQ : Nat := match qs with | some l => l.length | none => 0
  { testName := "General Mock Test"
    testId := "DEFAULT001"
    durationMinutes := if totalQ = 0 then 34 else (totalQ : Rat)
    totalMarks := if totalQ = 0 then 34 else (totalQ : Rat)
    marksPerQuestion := 1
    negativeMarking := 0.25
    nameDisplay := "User" }

/-- A user-supplied config object: a JS object whose fields may each be
absent (undefined). -/
structure ConfigObj where
  testName : Option String
  testId : Option String
  durationMinutes : Option Rat
  totalMarks : Option Rat
  marksPerQuestion : Option Rat
  negativeMarking : Option Rat
  nameDisplay : Option String
deriving Repr, DecidableEq

/-- View a full config as an object with every field present. -/
def Config.toObj (c : Config) : ConfigObj :=
  { testName := some c.testName
    testId := some c.testId
    durationMinutes := some c.durationMinutes
    totalMarks := some c.totalMarks
    marksPerQuestion := some c.marksPerQuestion
    negativeMarking := some c.negativeMarking
    nameDisplay := some c.nameDisplay }

/-- The JS value found at data.config: absent (undefined), one of the other
falsy primitives, or an object. -/
inductive ConfigVal where
  | vUndefined : ConfigVal
  | vNull : ConfigVal
  | vFalse : ConfigVal
  | vZero : ConfigVal
  | vEmptyStr : ConfigVal
  | vObj (c : ConfigObj) : ConfigVal
deriving Repr, DecidableEq

/-- JS truthiness of the possible data.config values: every object is
truthy, undefined, null, false, 0 and the empty string are falsy. -/
def ConfigVal.truthy : ConfigVal → Bool
  | .vObj _ => true
  | _ => false

/-- The constructor line this.config = data.config ||
this.getDefaultConfig(data.questions): the left operand when truthy,
otherwise the derived default. -/
def resolveConfig : ConfigVal → List Question → ConfigObj
  | .vObj c, _ => c
  | _, questions => (getDefaultConfig (some questions)).toObj

/-- JS Math.round for the exact values arising here: round half up. -/
def jsRound (x : Rat) : Int := (x + 1/2).floor

/-- JS Math.max on two ordered (non-NaN) numbers. -/
def jsMax (a b : Rat) : Rat := if a ≤ b then b else a

/-- The object calcResults returns. -/
structure Result where
  score : Rat
  correct : Nat
  incorrect : Nat
  unattempted : Nat
  timeTaken : Int
deriving Repr, DecidableEq

/-- One iteration of the forEach in calcResults, acting on the running
(correct, incorrect, unattempted, score) accumulator: null/undefined answer
counts unattempted; a defined correct_option_id equal to the answer counts
correct and adds marksPerQuestion; every other answered case counts
incorrect and subtracts negativeMarking. -/
def scoreFold (mpq neg : Rat) (acc : Nat × Nat × Nat × Rat)
    (p : Question × Option Int) : Nat × Nat × Nat × Rat :=
  match p.2 with
  | none => (acc.1, acc.2.1, acc.2.2.1 + 1, acc.2.2.2)
  | some u =>
    match p.1.correct_option_id with
    | some c =>
      if u = c then (acc.1 + 1, acc.2.1, acc.2.2.1, acc.2.2.2 + mpq)
      else (acc.1, acc.2.1 + 1, acc.2.2.1, acc.2.2.2 - neg)
    | none => (acc.1, acc.2.1 + 1, acc.2.2.1, acc.2.2.2 - neg)

/-- Pair each question with this.ans[i]; an index beyond the answers array
reads undefined, i.e. none. -/
def pairAnswers (qs : List Question) (ans : List (Option Int)) :
    List (Question × Option Int) :=
  qs.enum.map (fun p => (p.2, ans.getD p.1 none))

/-- calcResults: the forEach tally over the questions, the Math.max(0, ...)
clamp on the score, and timeTaken = Math.round((now - startT)/60000). -/
def calcResults (cfg : Config) (qs : List Question) (ans : List (Option Int))
    (now startT : Nat) : Result :=
  let t := (pairAnswers qs ans).foldl
    (scoreFold cfg.marksPerQuestion cfg.negativeMarking) (0, 0, 0, 0)
  { score := jsMax 0 t.2.2.2
    correct := t.1
    incorrect := t.2.1
    unattempted := t.2.2.1
    timeTaken := jsRound (((now : Rat) - (startT : Rat)) / 60000) }

/-- The predicate under which the forEach in calcResults counts a question
correct: the answer is present and equals a present correct_option_id. -/
def isCorrectAns (p : Question × Option Int) : Bool :=
  match p.2, p.1.correct_option_id with
  | some u, some c => decide (u = c)
  | _, _ => false

/-- Counted unattempted: the stored answer is null/undefined. -/
def isUnattempted (p : Question × Option Int) : Bool := p.2.isNone

/-- Counted incorrect: answered but not correct (wrong option, or no
correct_option_id on the question). -/
def isIncorrectAns (p : Question × Option Int) : Bool :=
  p.2.isSome && !isCorrectAns p

/-- The forEach accumulator, fully generalised: starting from any
accumulator, the left fold adds the three counts and the signed score of
the remaining list. -/
theorem scoreFold_foldl (mpq neg : Rat) (l : List (Question × Option Int)) :
    ∀ (c i u : Nat) (sc : Rat),
      l.foldl (scoreFold mpq neg) (c, i, u, sc) =
        (c + l.countP isCorrectAns, i + l.countP isIncorrectAns,
         u + l.countP isUnattempted,
         sc + mpq * (l.countP isCorrectAns : Rat)
            - neg * (l.countP isIncorrectAns : Rat)) := by
  induction l with
  | nil => intro c i u sc; simp
  | cons hd tl ih =>
    intro c i u sc
    obtain ⟨q, a⟩ := hd
    match ha : a with
    | none =>
      simp only [List.foldl_cons, scoreFold, List.countP_cons]
      rw [ih]
      simp [isCorrectAns, isIncorrectAns, isUnattempted]
      ring
    | some v =>
      match hc : q.correct_option_id with
      | none =>
        simp only [List.foldl_cons, scoreFold, hc, List.countP_cons]
        rw [ih]
        simp [isCorrectAns, isIncorrectAns, isUnattempted, hc]
        constructor
        · omega
        · ring
      | some cid =>
        by_cases hv : v = cid
        · simp only [List.foldl_cons, scoreFold, hc, hv, if_pos rfl,
            List.countP_cons]
          rw [ih]
          simp [isCorrectAns, isIncorrectAns, isUnattempted, hc, hv]
          constructor
          · omega
          · ring
        · simp only [List.foldl_cons, scoreFold, hc, if_neg hv,
            List.countP_cons]
          rw [ih]
          simp [isCorrectAns, isIncorrectAns, isUnattempted, hc, hv]
          constructor
          · omega
          · ring

/-- validateData: the indices the forEach would warn about, i.e. questions
whose correct_option_id is present and negative or not below the number of
options (comparisons with an undefined id are false in JS, so an absent id
is never warned about). The questions themselves are left untouched. -/
def validateData (qs : List Question) : List Nat :=
  (qs.enum.filter (fun p =>
    match p.2.correct_option_id with
    | some c => decide (c < 0 ∨ (p.2.options.length : Int) ≤ c)
    | none => false)).map (fun p => p.1)

/-- The mutable session state the TestApp constructor initialises. Date.now
timestamps are naturals (milliseconds); timeLeft and the timeSpent
accumulators are rationals, as the JS divides by 1000 with fractions kept.
timerRunning models whether the setInterval handle is live, and lastResult
records the Result object the last successful subTest computed and showed. -/
structure TestState where
  config : Config
  qs : List Question
  curQ : Nat
  ans : List (Option Int)
  reviewed : List Bool
  startT : Nat
  timeLeft : Rat
  timeSpent : List Rat
  lastQTime : Nat
  sub : Bool
  eng : Bool
  timerRunning : Bool
  lastResult : Option Result
deriving Repr, DecidableEq

/-- The constructor's state initialisation: index 0 current, all answers
null, all review flags false, timers anchored at construction time,
timeLeft = durationMinutes * 60, not submitted, English, no interval yet. -/
def initState (cfg : Config) (questions : List Question) (now : Nat) :
    TestState :=
  { config := cfg
    qs := questions
    curQ := 0
    ans := List.replicate questions.length none
    reviewed := List.replicate questions.length false
    startT := now
    timeLeft := cfg.durationMinutes * 60
    timeSpent := List.replicate questions.length 0
    lastQTime := now
    sub := false
    eng := true
    timerRunning := false
    lastResult := none }

/-- loadQ(idx): when the index changes, flush (now - lastQTime)/1000 onto
timeSpent[curQ] and reset lastQTime; then set curQ = idx. There is no
submitted guard and no bounds check in the source. -/
def loadQ (now : Nat) (idx : Nat) (s : TestState) : TestState :=
  if s.curQ ≠ idx then
    { s with
      timeSpent := s.timeSpent.set s.curQ
        (s.timeSpent.getD s.curQ 0 + ((now : Rat) - (s.lastQTime : Rat)) / 1000)
      lastQTime := now
      curQ := idx }
  else
    { s with curQ := idx }

/-- nav(dir): newIdx = curQ + dir, loadQ only when 0 <= newIdx < qs.length. -/
def nav (now : Nat) (dir : Int) (s : TestState) : TestState :=
  let newIdx : Int := (s.curQ : Int) + dir
  if 0 ≤ newIdx ∧ newIdx < (s.qs.length : Int) then loadQ now newIdx.toNat s
  else s

/-- goToQ(idx): loadQ with no bounds check (the panel close is DOM-only). -/
def goToQ (now : Nat) (idx : Nat) (s : TestState) : TestState :=
  loadQ now idx s

/-- selOpt(optIdx, qIdx): no-op once submitted; otherwise toggle, clearing
to null when the stored answer already equals optIdx. -/
def selOpt (optIdx : Int) (qIdx : Nat) (s : TestState) : TestState :=
  if s.sub then s
  else
    let newAns := if s.ans.getD qIdx none = some optIdx then none else some optIdx
    { s with ans := s.ans.set qIdx newAns }

/-- toggleReview: no-op once submitted; otherwise flip the current flag. -/
def toggleReview (s : TestState) : TestState :=
  if s.sub then s
  else { s with reviewed := s.reviewed.set s.curQ (!s.reviewed.getD s.curQ false) }

/-- stopTimers: clearInterval on both handles. -/
def stopTimers (s : TestState) : TestState := { s with timerRunning := false }

/-- startTimer: install the one-second interval. -/
def startTimer (s : TestState) : TestState := { s with timerRunning := true }

/-- subTest: guarded by submitted; flushes the pending interval onto
timeSpent[curQ] (without resetting lastQTime), sets submitted, stops the
timers, computes and shows calcResults, and reloads the current question. -/
def subTest (now : Nat) (s : TestState) : TestState :=
  if s.sub then s
  else
    let s1 := { s with
      timeSpent := s.timeSpent.set s.curQ
        (s.timeSpent.getD s.curQ 0 + ((now : Rat) - (s.lastQTime : Rat)) / 1000) }
    let s2 := stopTimers { s1 with sub := true }
    let results := calcResults s2.config s2.qs s2.ans now s2.startT
    loadQ now s2.curQ { s2 with lastResult := some results }

/-- The setInterval callback of startTimer: decrement timeLeft; at zero or
below, clear the interval and submit. Runs only while the interval is live. -/
def tick (now : Nat) (s : TestState) : TestState :=
  if s.timerRunning then
    let s1 := { s with timeLeft := s.timeLeft - 1 }
    if s1.timeLeft ≤ 0 then subTest now (stopTimers s1) else s1
  else s

/-- setLang: record the language and reload the current question. -/
def setLang (lang : Bool) (now : Nat) (s : TestState) : TestState :=
  loadQ now s.curQ { s with eng := lang }

/-- init() after the start button: startTimer then loadQ(0). -/
def startSession (now : Nat) (s : TestState) : TestState :=
  loadQ now 0 (startTimer s)

/-- review(): close the modal and loadQ(0). -/
def review (now : Nat) (s : TestState) : TestState := loadQ now 0 s

/-- The discrete triggers that mutate session state: the start button, the
prev/next buttons, a grid click, an option click, the review button, a
timer tick, submission (button confirm or forced), the language buttons,
and the Review Answers button on the result modal. -/
inductive Ev where
  | startE : Ev
  | navE (dir : Int) : Ev
  | goToQE (idx : Nat) : Ev
  | selOptE (optIdx : Int) (qIdx : Nat) : Ev
  | toggleReviewE : Ev
  | tickE : Ev
  | subTestE : Ev
  | setLangE (lang : Bool) : Ev
  | reviewE : Ev
deriving Repr, DecidableEq

/-- Dispatch one trigger arriving at wall-clock time t. -/
def step (s : TestState) (t : Nat) (e : Ev) : TestState :=
  match e with
  | .startE => startSession t s
  | .navE dir => nav t dir s
  | .goToQE idx => goToQ t idx s
  | .selOptE o q => selOpt o q s
  | .toggleReviewE => toggleReview s
  | .tickE => tick t s
  | .subTestE => subTest t s
  | .setLangE b => setLang b t s
  | .reviewE => review t s

/-- Run a list of timed triggers in arrival order. -/
def runEvents (s : TestState) : List (Nat × Ev) → TestState
  | [] => s
  | (t, e) :: rest => runEvents (step s t e) rest

/-- The trigger times are non-decreasing and start no earlier than tlo. -/
def timesOKb (tlo : Nat) : List (Nat × Ev) → Bool
  | [] => true
  | (t, _) :: rest => decide (tlo ≤ t) && timesOKb t rest

/-- Every trigger time is at most T. -/
def timesLEb (cap : Nat) (evs : List (Nat × Ev)) : Bool :=
  evs.all (fun p => decide (p.1 ≤ cap))

/-- The time of the last trigger, or tlo for an empty list. -/
def lastTimeOf (tlo : Nat) : List (Nat × Ev) → Nat
  | [] => tlo
  | (t, _) :: rest => lastTimeOf t rest

/-- A trigger the running page can actually produce: grid clicks only exist
for the indices createGrid made, i.e. below qs.length. -/
def evValid (n : Nat) : Ev → Bool
  | .goToQE idx => decide (idx < n)
  | _ => true

/-- All triggers of a trace can actually be produced by the page. -/
def evsValid (n : Nat) (evs : List (Nat × Ev)) : Bool :=
  evs.all (fun p => evValid n p.2)

/-- Total recorded per-question time of a state. -/
def sumTS (s : TestState) : Rat := s.timeSpent.sum

/-- A two-option question with the given correct_option_id, used in the
concrete scenarios below. -/
def q2 (c : Option Int) : Question :=
  { question := "", options := ["", ""], correct_option_id := c,
    comp := none, solution := none }

/-- A small concrete config for the scenarios. -/
def cfg0 : Config :=
  { testName := "", testId := "", durationMinutes := 2, totalMarks := 2,
    marksPerQuestion := 1, negativeMarking := 0.25, nameDisplay := "" }

/-- A two-question payload. -/
def qs2 : List Question := [q2 (some 0), q2 (some 1)]

/-- A session over qs2 constructed at time 0. -/
def s2init : TestState := initState cfg0 qs2 0

/-- A one-question session constructed at time 0. -/
def s1q : TestState := initState cfg0 [q2 (some 0)] 0

/-- Ten questions whose correct option is 0, for the C1 scenario. -/
def scenQs : List Question := List.replicate 10 (q2 (some 0))

/-- Six correct answers, three wrong ones, one null. -/
def scenAns : List (Option Int) :=
  List.replicate 6 (some 0) ++ List.replicate 3 (some 1) ++ [none]

/-- marksPerQuestion = 2 and negativeMarking = 0.5, for the C1 scenario. -/
def scenCfg : Config :=
  { testName := "", testId := "", durationMinutes := 10, totalMarks := 20,
    marksPerQuestion := 2, negativeMarking := 0.5, nameDisplay := "" }

/-- A forty-question payload for the C8 scenario. -/
def qs40 : List Question := List.replicate 40 (q2 (some 0))

/-- A supplied config object missing marksPerQuestion and durationMinutes. -/
def cfgSparse : ConfigObj :=
  { testName := some "Partial", testId := none, durationMinutes := none,
    totalMarks := some 10, marksPerQuestion := none, negativeMarking := none,
    nameDisplay := none }

/-- C1: the per-question scoring of calcResults. Null (or undefined) answers
count unattempted with no score change; an answer equal to a present
correct_option_id counts correct and earns marksPerQuestion; every other
answered question (wrong option, or absent correct id) counts incorrect
and loses negativeMarking; the reported score is max(0, raw score). The
10-question scenario with marksPerQuestion = 2 and negativeMarking = 0.5
and 6 correct, 3 incorrect, 1 null gives score 10.5, correct = 6,
incorrect = 3, unattempted = 1. -/
theorem c1_scoring :
    (∀ (cfg : Config) (qs : List Question) (ans : List (Option Int))
       (now startT : Nat),
      calcResults cfg qs ans now startT =
        { score := max 0
            (cfg.marksPerQuestion * ((pairAnswers qs ans).countP isCorrectAns : Rat)
              - cfg.negativeMarking * ((pairAnswers qs ans).countP isIncorrectAns : Rat))
          correct := (pairAnswers qs ans).countP isCorrectAns
          incorrect := (pairAnswers qs ans).countP isIncorrectAns
          unattempted := (pairAnswers qs ans).countP isUnattempted
          timeTaken := jsRound (((now : Rat) - (startT : Rat)) / 60000) }) ∧
    calcResults scenCfg scenQs scenAns 0 0 =
      { score := 10.5, correct := 6, incorrect := 3, unattempted := 1,
        timeTaken := 0 } := by
  constructor
  · intro cfg qs ans now startT
    unfold calcResults
    rw [scoreFold_foldl]
    simp [jsMax, max_def]
  · decide

/-- C8: with no supplied config (data.config undefined) the constructor
derives the default: durationMinutes = totalMarks = N with fallback 34 when
N = 0, marksPerQuestion = 1 and negativeMarking = 0.25; a forty-question
payload gives durationMinutes = 40, totalMarks = 40, marksPerQuestion = 1,
negativeMarking = 0.25. -/
theorem c8_default_config :
    (∀ qs : List Question,
      resolveConfig .vUndefined qs = (getDefaultConfig (some qs)).toObj ∧
      (getDefaultConfig (some qs)).durationMinutes =
        (if qs.length = 0 then 34 else (qs.length : Rat)) ∧
      (getDefaultConfig (some qs)).totalMarks =
        (if qs.length = 0 then 34 else (qs.length : Rat)) ∧
      (getDefaultConfig (some qs)).marksPerQuestion = 1 ∧
      (getDefaultConfig (some qs)).negativeMarking = 0.25) ∧
    (getDefaultConfig (some qs40)).durationMinutes = 40 ∧
    (getDefaultConfig (some qs40)).totalMarks = 40 ∧
    (getDefaultConfig (some qs40)).marksPerQuestion = 1 ∧
    (getDefaultConfig (some qs40)).negativeMarking = 0.25 := by
  refine ⟨fun qs => ⟨rfl, rfl, rfl, rfl, rfl⟩, ?_, ?_, rfl, rfl⟩ <;> decide

/-- C10: the constructor substitutes the derived default whenever
data.config is falsy (undefined, null, false, 0 or the empty string), and
uses any truthy config object exactly as supplied, without defaulting
missing fields such as marksPerQuestion or durationMinutes. -/
theorem c10_falsy_config :
    ∀ (qs : List Question) (c : ConfigObj),
      resolveConfig .vUndefined qs = (getDefaultConfig (some qs)).toObj ∧
      resolveConfig .vNull qs = (getDefaultConfig (some qs)).toObj ∧
      resolveConfig .vFalse qs = (getDefaultConfig (some qs)).toObj ∧
      resolveConfig .vZero qs = (getDefaultConfig (some qs)).toObj ∧
      resolveConfig .vEmptyStr qs = (getDefaultConfig (some qs)).toObj ∧
      (∀ v : ConfigVal, v.truthy = false →
        resolveConfig v qs = (getDefaultConfig (some qs)).toObj) ∧
      resolveConfig (.vObj c) qs = c ∧
      resolveConfig (.vObj cfgSparse) qs = cfgSparse ∧
      cfgSparse.marksPerQuestion = none ∧
      cfgSparse.durationMinutes = none := by
  intro qs c
  refine ⟨rfl, rfl, rfl, rfl, rfl, ?_, rfl, rfl, rfl, rfl⟩
  intro v hv
  cases v <;> simp_all [ConfigVal.truthy, resolveConfig]

/-- C9: a question whose correct_option_id is present but out of bounds for
its options list is flagged by validateData at construction (and the
questions are kept unchanged, never corrected), and scoring never counts it
correct: every in-range answered value is tallied incorrect, losing
negativeMarking, while a null answer stays unattempted. -/
theorem c9_invalid_correct_id (q : Question) (c u : Int) (cfg : Config)
    (now st : Nat)
    (hc : q.correct_option_id = some c)
    (hoob : c < 0 ∨ (q.options.length : Int) ≤ c)
    (hu0 : 0 ≤ u) (hu : u < (q.options.length : Int)) :
    isCorrectAns (q, some u) = false ∧
    (∀ acc : Nat × Nat × Nat × Rat,
      scoreFold cfg.marksPerQuestion cfg.negativeMarking acc (q, some u) =
        (acc.1, acc.2.1 + 1, acc.2.2.1, acc.2.2.2 - cfg.negativeMarking)) ∧
    (calcResults cfg [q] [some u] now st).correct = 0 ∧
    (calcResults cfg [q] [some u] now st).incorrect = 1 ∧
    (calcResults cfg [q] [none] now st).unattempted = 1 ∧
    (calcResults cfg [q] [none] now st).correct = 0 ∧
    validateData [q] = [0] ∧
    (initState cfg [q] now).qs = [q] := by
  have hne : u ≠ c := by omega
  refine ⟨?_, ?_, ?_, ?_, ?_, ?_, ?_, rfl⟩
  · simp [isCorrectAns, hc, hne]
  · intro acc
    simp [scoreFold, hc, hne]
  · simp [calcResults, pairAnswers, List.enum, scoreFold, hc, hne]
  · simp [calcResults, pairAnswers, List.enum, scoreFold, hc, hne]
  · simp [calcResults, pairAnswers, List.enum, scoreFold]
  · simp [calcResults, pairAnswers, List.enum, scoreFold]
  · have hb : (decide (c < 0) || decide ((q.options.length : Int) ≤ c)) = true := by
      rcases hoob with h | h <;> simp [h]
    simp [validateData, List.enum, hc, hb]

/-- A concrete instance of C9: a two-option question with
correct_option_id = 5 is warned about and any in-range answer scores
incorrect. -/
theorem c9_invalid_correct_id_witness :
    (q2 (some 5)).correct_option_id = some 5 ∧
    (((q2 (some 5)).options.length : Int) ≤ 5) ∧
    isCorrectAns (q2 (some 5), some 1) = false ∧
    (calcResults cfg0 [q2 (some 5)] [some 1] 0 0).incorrect = 1 ∧
    (calcResults cfg0 [q2 (some 5)] [none] 0 0).unattempted = 1 ∧
    validateData [q2 (some 5)] = [0] := by
  have h := c9_invalid_correct_id (q2 (some 5)) 5 1 cfg0 0 0 rfl
    (Or.inr (by decide)) (by decide) (by decide)
  exact ⟨rfl, by decide, h.1, h.2.2.2.1, h.2.2.2.2.1, h.2.2.2.2.2.2.1⟩

/-- Reading back the slot just written, for an in-range index. -/
theorem getD_set_self {α : Type} (l : List α) (i : Nat) (x d : α)
    (h : i < l.length) : (l.set i x).getD i d = x := by
  induction l generalizing i with
  | nil => simp at h
  | cons a t ih =>
    cases i with
    | zero => simp
    | succ n => simpa using ih n (by simpa using h)

/-- loadQ leaves every field except curQ, timeSpent and lastQTime alone. -/
theorem loadQ_frame (now idx : Nat) (s : TestState) :
    (loadQ now idx s).config = s.config ∧ (loadQ now idx s).qs = s.qs ∧
    (loadQ now idx s).curQ = idx ∧ (loadQ now idx s).ans = s.ans ∧
    (loadQ now idx s).reviewed = s.reviewed ∧
    (loadQ now idx s).startT = s.startT ∧
    (loadQ now idx s).timeLeft = s.timeLeft ∧
    (loadQ now idx s).sub = s.sub ∧ (loadQ now idx s).eng = s.eng ∧
    (loadQ now idx s).timerRunning = s.timerRunning ∧
    (loadQ now idx s).lastResult = s.lastResult := by
  unfold loadQ
  split <;> simp

/-- The sub flag after loadQ. -/
theorem loadQ_sub (now idx : Nat) (s : TestState) :
    (loadQ now idx s).sub = s.sub := (loadQ_frame now idx s).2.2.2.2.2.2.2.1

/-- A submitted session ignores option clicks entirely. -/
theorem selOpt_sub_id (k : Int) (i : Nat) (s : TestState) (hs : s.sub = true) :
    selOpt k i s = s := by
  unfold selOpt; rw [if_pos hs]

/-- A submitted session ignores the review button entirely. -/
theorem toggleReview_sub_id (s : TestState) (hs : s.sub = true) :
    toggleReview s = s := by
  unfold toggleReview; rw [if_pos hs]

/-- A submitted session ignores further submissions entirely. -/
theorem subTest_sub_id (now : Nat) (s : TestState) (hs : s.sub = true) :
    subTest now s = s := by
  unfold subTest; rw [if_pos hs]

/-- selOpt never changes the sub flag. -/
theorem selOpt_sub (k : Int) (i : Nat) (s : TestState) :
    (selOpt k i s).sub = s.sub := by
  unfold selOpt; split <;> rfl

/-- selOpt never changes the length of the answers array. -/
theorem selOpt_ans_length (k : Int) (i : Nat) (s : TestState) :
    (selOpt k i s).ans.length = s.ans.length := by
  unfold selOpt; split
  · rfl
  · simp

/-- subTest always leaves the session submitted. -/
theorem subTest_sub (now : Nat) (s : TestState) : (subTest now s).sub = true := by
  unfold subTest
  split
  · assumption
  · rw [loadQ_sub]; rfl

/-- The submitted flag never goes back to false: every trigger preserves it. -/
theorem step_sub_mono (s : TestState) (t : Nat) (e : Ev) (hs : s.sub = true) :
    (step s t e).sub = true := by
  cases e with
  | startE => show (loadQ t 0 (startTimer s)).sub = true; rw [loadQ_sub]; exact hs
  | navE dir =>
    show (nav t dir s).sub = true
    unfold nav
    dsimp only
    split
    . rw [loadQ_sub]; exact hs
    . exact hs
  | goToQE idx => show (loadQ t idx s).sub = true; rw [loadQ_sub]; exact hs
  | selOptE o q => show (selOpt o q s).sub = true; rw [selOpt_sub_id o q s hs]; exact hs
  | toggleReviewE =>
    show (toggleReview s).sub = true
    rw [toggleReview_sub_id s hs]; exact hs
  | tickE =>
    show (tick t s).sub = true
    unfold tick
    dsimp only
    split
    . split
      . exact subTest_sub t _
      . exact hs
    . exact hs
  | subTestE => exact subTest_sub t s
  | setLangE b => show (loadQ t s.curQ _).sub = true; rw [loadQ_sub]; exact hs
  | reviewE => show (loadQ t 0 s).sub = true; rw [loadQ_sub]; exact hs

/-- What a single selOpt call stores at its own index, before submission. -/
theorem selOpt_getD (k : Int) (i : Nat) (s : TestState)
    (hsub : s.sub = false) (hi : i < s.ans.length) :
    (selOpt k i s).ans.getD i none =
      (if s.ans.getD i none = some k then none else some k) := by
  unfold selOpt
  rw [if_neg (by simp [hsub])]
  exact getD_set_self _ _ _ _ hi

/-- C4: selOpt toggles: before submission a single call on an in-range
question index stores optIdx unless the slot already holds it, in which
case it clears to null; hence two successive identical calls end at null
exactly when the slot did not already hold optIdx, and restore optIdx when
it did, refuting the unconditional double-call claim. -/
theorem c4_toggle (s : TestState) (k : Int) (i : Nat)
    (hsub : s.sub = false) (hi : i < s.ans.length) :
    (selOpt k i s).ans.getD i none =
      (if s.ans.getD i none = some k then none else some k) ∧
    (s.ans.getD i none ≠ some k →
      (selOpt k i (selOpt k i s)).ans.getD i none = none) ∧
    (s.ans.getD i none = some k →
      (selOpt k i (selOpt k i s)).ans.getD i none = some k) := by
  have hsub1 : (selOpt k i s).sub = false := by rw [selOpt_sub]; exact hsub
  have hi1 : i < (selOpt k i s).ans.length := by rw [selOpt_ans_length]; exact hi
  have ha := selOpt_getD k i s hsub hi
  have hb := selOpt_getD k i (selOpt k i s) hsub1 hi1
  refine ⟨ha, ?_, ?_⟩
  . intro hne
    rw [hb, ha, if_neg hne]
    simp
  . intro heq
    rw [hb, ha, if_pos heq]
    simp

/-- Concrete instance of C4: on the fresh one-question session, one call
stores option 0, and from the empty slot two calls return it to null. -/
theorem c4_toggle_witness :
    s1q.sub = false ∧ 0 < s1q.ans.length ∧
    ((selOpt 0 0 s1q).ans.getD 0 none =
      (if s1q.ans.getD 0 none = some 0 then none else some 0)) ∧
    (s1q.ans.getD 0 none ≠ some 0 →
      (selOpt 0 0 (selOpt 0 0 s1q)).ans.getD 0 none = none) ∧
    (s1q.ans.getD 0 none = some 0 →
      (selOpt 0 0 (selOpt 0 0 s1q)).ans.getD 0 none = some 0) := by
  have h := c4_toggle s1q 0 0 rfl (by decide)
  exact ⟨rfl, by decide, h.1, h.2.1, h.2.2⟩

/-- C4 as frozen is false on the code: starting from a slot that already
holds option 0 (after one click), two further identical calls leave the
answer at option 0, not null. -/
theorem c4_double_call_cex :
    (selOpt 0 0 s1q).ans.getD 0 none = some 0 ∧
    (selOpt 0 0 (selOpt 0 0 (selOpt 0 0 s1q))).ans.getD 0 none = some 0 ∧
    ¬((selOpt 0 0 (selOpt 0 0 (selOpt 0 0 s1q))).ans.getD 0 none = none) := by
  decide

/-- Reloading the question already current changes nothing: no flush, same
index. -/
theorem loadQ_self (now : Nat) (s : TestState) : loadQ now s.curQ s = s := by
  unfold loadQ
  rw [if_neg (by simp)]

/-- What subTest does to an unsubmitted session: flush the pending interval
onto timeSpent[curQ] without touching lastQTime, mark submitted, stop the
interval, and record the computed Result. -/
theorem subTest_eq (now : Nat) (s : TestState) (hs : s.sub = false) :
    subTest now s =
      { s with
        timeSpent := s.timeSpent.set s.curQ
          (s.timeSpent.getD s.curQ 0 + ((now : Rat) - (s.lastQTime : Rat)) / 1000)
        sub := true
        timerRunning := false
        lastResult := some (calcResults s.config s.qs s.ans now s.startT) } := by
  unfold subTest
  rw [if_neg (by simp [hs])]
  dsimp only
  exact (loadQ_self now _).trans rfl

/-- C5: after submission the session is frozen. subTest always ends with
sub = true; on a submitted session selOpt and toggleReview are complete
no-ops, a second subTest is the identity (so the recorded Result of the
first call is kept unchanged), and no trigger whatsoever resets sub, making
the false-to-true transition a one-time irreversible event. -/
theorem c5_submit_idempotent :
    (∀ (s : TestState) (t : Nat), (subTest t s).sub = true) ∧
    (∀ (s : TestState) (k : Int) (i : Nat),
      s.sub = true → selOpt k i s = s ∧ toggleReview s = s) ∧
    (∀ (s : TestState) (t tt : Nat), subTest tt (subTest t s) = subTest t s) ∧
    (∀ (s : TestState) (t tt : Nat),
      (subTest tt (subTest t s)).lastResult = (subTest t s).lastResult) ∧
    (∀ (s : TestState) (t : Nat) (e : Ev),
      s.sub = true → (step s t e).sub = true) := by
  refine ⟨fun s t => subTest_sub t s, ?_, ?_, ?_,
    fun s t e hs => step_sub_mono s t e hs⟩
  . intro s k i hs
    exact ⟨selOpt_sub_id k i s hs, toggleReview_sub_id s hs⟩
  . intro s t tt
    exact subTest_sub_id tt (subTest t s) (subTest_sub t s)
  . intro s t tt
    rw [subTest_sub_id tt (subTest t s) (subTest_sub t s)]

/-- Concrete instance of C5 on the two-question session submitted at
t = 100: a later option click, review toggle and second submission all
leave the state (and its recorded Result) untouched. -/
theorem c5_submit_idempotent_witness :
    (subTest 100 s2init).sub = true ∧
    selOpt 0 0 (subTest 100 s2init) = subTest 100 s2init ∧
    toggleReview (subTest 100 s2init) = subTest 100 s2init ∧
    subTest 200 (subTest 100 s2init) = subTest 100 s2init ∧
    (subTest 200 (subTest 100 s2init)).lastResult =
      (subTest 100 s2init).lastResult ∧
    (step (subTest 100 s2init) 300 .toggleReviewE).sub = true := by
  have h := c5_submit_idempotent
  have hsub := h.1 s2init 100
  exact ⟨hsub, (h.2.1 _ 0 0 hsub).1, (h.2.1 _ 0 0 hsub).2,
    h.2.2.1 s2init 100 200, h.2.2.2.1 s2init 100 200,
    h.2.2.2.2 _ 300 _ hsub⟩

/-- subTest never touches the countdown value itself. -/
theorem subTest_timeLeft (now : Nat) (s : TestState) :
    (subTest now s).timeLeft = s.timeLeft := by
  unfold subTest
  split
  . rfl
  . rw [(loadQ_frame _ _ _).2.2.2.2.2.2.1]; rfl

/-- C7: each live tick decrements timeLeft by exactly one; a tick on a dead
interval is a no-op; submission clears the interval; and when the counter
reaches 0 the tick force-submits: sub becomes true, the interval stops, and
the recorded Result is computed by the same calcResults call a manual
subTest at that moment would make. -/
theorem c7_tick_countdown (s : TestState) (t : Nat) :
    (s.timerRunning = true → (tick t s).timeLeft = s.timeLeft - 1) ∧
    (s.timerRunning = false → tick t s = s) ∧
    (s.sub = false → (subTest t s).timerRunning = false) ∧
    (s.timerRunning = true → s.sub = false → s.timeLeft = 1 →
      (tick t s).sub = true ∧ (tick t s).timerRunning = false ∧
      (tick t s).lastResult =
        some (calcResults s.config s.qs s.ans t s.startT) ∧
      (tick t s).lastResult = (subTest t s).lastResult) := by
  refine ⟨?_, ?_, ?_, ?_⟩
  . intro hr
    unfold tick
    rw [if_pos hr]
    dsimp only
    split
    . rw [subTest_timeLeft]; rfl
    . rfl
  . intro hr
    unfold tick
    rw [if_neg (by simp [hr])]
  . intro hs
    rw [subTest_eq t s hs]
  . intro hr hs h1
    unfold tick
    rw [if_pos hr]
    dsimp only
    rw [if_pos (by rw [h1]; norm_num)]
    rw [subTest_eq t _ (by exact hs)]
    refine ⟨rfl, rfl, rfl, ?_⟩
    rw [subTest_eq t s hs]
    rfl

/-- The two-question session with a live interval and one second left. -/
def sTick : TestState := { s2init with timerRunning := true, timeLeft := 1 }

/-- A concrete run of C7: on a live session with one second left, the tick
at t = 5 drops the counter to 0, force-submits with the same Result a
manual submission would record, stops the interval, and a further tick is
a no-op. -/
theorem c7_tick_countdown_witness :
    sTick.timerRunning = true ∧ sTick.sub = false ∧ sTick.timeLeft = 1 ∧
    (tick 5 sTick).timeLeft = sTick.timeLeft - 1 ∧
    (tick 5 sTick).sub = true ∧ (tick 5 sTick).timerRunning = false ∧
    (tick 5 sTick).lastResult =
      some (calcResults sTick.config sTick.qs sTick.ans 5 sTick.startT) ∧
    (tick 5 sTick).lastResult = (subTest 5 sTick).lastResult ∧
    tick 6 (tick 5 sTick) = tick 5 sTick := by
  have h := c7_tick_countdown sTick 5
  have h4 := h.2.2.2 rfl rfl rfl
  exact ⟨rfl, rfl, rfl, h.1 rfl, h4.1, h4.2.1, h4.2.2.1, h4.2.2.2,
    (c7_tick_countdown (tick 5 sTick) 6).2.1 h4.2.1⟩

/-- selOpt only ever touches the answers array. -/
theorem selOpt_frame (k : Int) (i : Nat) (s : TestState) :
    (selOpt k i s).config = s.config ∧ (selOpt k i s).qs = s.qs ∧
    (selOpt k i s).curQ = s.curQ ∧ (selOpt k i s).reviewed = s.reviewed ∧
    (selOpt k i s).startT = s.startT ∧ (selOpt k i s).timeLeft = s.timeLeft ∧
    (selOpt k i s).timeSpent = s.timeSpent ∧
    (selOpt k i s).lastQTime = s.lastQTime ∧ (selOpt k i s).sub = s.sub ∧
    (selOpt k i s).eng = s.eng ∧
    (selOpt k i s).timerRunning = s.timerRunning ∧
    (selOpt k i s).lastResult = s.lastResult := by
  unfold selOpt; split <;> simp

/-- toggleReview only ever touches the review flags. -/
theorem toggleReview_frame (s : TestState) :
    (toggleReview s).config = s.config ∧ (toggleReview s).qs = s.qs ∧
    (toggleReview s).curQ = s.curQ ∧ (toggleReview s).ans = s.ans ∧
    (toggleReview s).startT = s.startT ∧
    (toggleReview s).timeLeft = s.timeLeft ∧
    (toggleReview s).timeSpent = s.timeSpent ∧
    (toggleReview s).lastQTime = s.lastQTime ∧ (toggleReview s).sub = s.sub ∧
    (toggleReview s).eng = s.eng ∧
    (toggleReview s).timerRunning = s.timerRunning ∧
    (toggleReview s).lastResult = s.lastResult := by
  unfold toggleReview; split <;> simp

/-- subTest leaves the questions, answers, flags, current index, timestamps
and countdown alone. -/
theorem subTest_frame (now : Nat) (s : TestState) :
    (subTest now s).config = s.config ∧ (subTest now s).qs = s.qs ∧
    (subTest now s).curQ = s.curQ ∧ (subTest now s).ans = s.ans ∧
    (subTest now s).reviewed = s.reviewed ∧
    (subTest now s).startT = s.startT ∧
    (subTest now s).timeLeft = s.timeLeft ∧ (subTest now s).eng = s.eng ∧
    (subTest now s).lastQTime = s.lastQTime := by
  by_cases hs : s.sub = true
  . rw [subTest_sub_id now s hs]
    exact ⟨rfl, rfl, rfl, rfl, rfl, rfl, rfl, rfl, rfl⟩
  . rw [subTest_eq now s (by simpa using hs)]
    exact ⟨rfl, rfl, rfl, rfl, rfl, rfl, rfl, rfl, rfl⟩

/-- tick leaves the questions, answers, flags, current index, timestamps
and recorded times alone, except through the subTest flush. -/
theorem tick_frame (t : Nat) (s : TestState) :
    (tick t s).config = s.config ∧ (tick t s).qs = s.qs ∧
    (tick t s).curQ = s.curQ ∧ (tick t s).ans = s.ans ∧
    (tick t s).reviewed = s.reviewed ∧ (tick t s).startT = s.startT ∧
    (tick t s).eng = s.eng ∧ (tick t s).lastQTime = s.lastQTime := by
  unfold tick
  split
  . dsimp only
    split
    . have h := subTest_frame t (stopTimers { s with timeLeft := s.timeLeft - 1 })
      exact ⟨h.1, h.2.1, h.2.2.1, h.2.2.2.1, h.2.2.2.2.1, h.2.2.2.2.2.1,
        h.2.2.2.2.2.2.2.1, h.2.2.2.2.2.2.2.2⟩
    . exact ⟨rfl, rfl, rfl, rfl, rfl, rfl, rfl, rfl⟩
  . exact ⟨rfl, rfl, rfl, rfl, rfl, rfl, rfl, rfl⟩

/-- No trigger ever changes the loaded question list or the construction
timestamp. -/
theorem step_qs_startT (s : TestState) (t : Nat) (e : Ev) :
    (step s t e).qs = s.qs ∧ (step s t e).startT = s.startT := by
  cases e with
  | startE =>
    have h := loadQ_frame t 0 (startTimer s)
    exact ⟨h.2.1, h.2.2.2.2.2.1⟩
  | navE dir =>
    show (nav t dir s).qs = s.qs ∧ (nav t dir s).startT = s.startT
    unfold nav
    dsimp only
    split
    . exact ⟨(loadQ_frame _ _ _).2.1, (loadQ_frame _ _ _).2.2.2.2.2.1⟩
    . exact ⟨rfl, rfl⟩
  | goToQE idx =>
    exact ⟨(loadQ_frame _ _ _).2.1, (loadQ_frame _ _ _).2.2.2.2.2.1⟩
  | selOptE o q => exact ⟨(selOpt_frame o q s).2.1, (selOpt_frame o q s).2.2.2.2.1⟩
  | toggleReviewE =>
    exact ⟨(toggleReview_frame s).2.1, (toggleReview_frame s).2.2.2.2.1⟩
  | tickE => exact ⟨(tick_frame t s).2.1, (tick_frame t s).2.2.2.2.2.1⟩
  | subTestE => exact ⟨(subTest_frame t s).2.1, (subTest_frame t s).2.2.2.2.2.1⟩
  | setLangE b =>
    exact ⟨(loadQ_frame _ _ _).2.1, (loadQ_frame _ _ _).2.2.2.2.2.1⟩
  | reviewE =>
    exact ⟨(loadQ_frame _ _ _).2.1, (loadQ_frame _ _ _).2.2.2.2.2.1⟩

/-- Any trigger the page can produce keeps the current index in range. -/
theorem step_curQ_lt (s : TestState) (t : Nat) (e : Ev)
    (h : s.curQ < s.qs.length) (hn : 0 < s.qs.length)
    (hv : evValid s.qs.length e = true) :
    (step s t e).curQ < s.qs.length := by
  cases e with
  | startE =>
    show (loadQ t 0 (startTimer s)).curQ < s.qs.length
    rw [(loadQ_frame _ _ _).2.2.1]
    exact hn
  | navE dir =>
    show (nav t dir s).curQ < s.qs.length
    unfold nav
    dsimp only
    split
    . rw [(loadQ_frame _ _ _).2.2.1]
      omega
    . exact h
  | goToQE idx =>
    show (loadQ t idx s).curQ < s.qs.length
    rw [(loadQ_frame _ _ _).2.2.1]
    simpa [evValid] using hv
  | selOptE o q =>
    show (selOpt o q s).curQ < s.qs.length
    rw [(selOpt_frame o q s).2.2.1]; exact h
  | toggleReviewE =>
    show (toggleReview s).curQ < s.qs.length
    rw [(toggleReview_frame s).2.2.1]; exact h
  | tickE =>
    show (tick t s).curQ < s.qs.length
    rw [(tick_frame t s).2.2.1]; exact h
  | subTestE =>
    show (subTest t s).curQ < s.qs.length
    rw [(subTest_frame t s).2.2.1]; exact h
  | setLangE b =>
    show (loadQ t s.curQ _).curQ < s.qs.length
    rw [(loadQ_frame _ _ _).2.2.1]
    exact h
  | reviewE =>
    show (loadQ t 0 s).curQ < s.qs.length
    rw [(loadQ_frame _ _ _).2.2.1]
    exact hn

/-- Running any producible trace keeps the question list fixed and the
current index in range. -/
theorem run_curQ_lt (evs : List (Nat × Ev)) : ∀ (s : TestState),
    s.curQ < s.qs.length → 0 < s.qs.length →
    evsValid s.qs.length evs = true →
    (runEvents s evs).qs = s.qs ∧ (runEvents s evs).curQ < s.qs.length := by
  induction evs with
  | nil => intro s h hn _; exact ⟨rfl, h⟩
  | cons p rest ih =>
    intro s h hn hv
    obtain ⟨t, e⟩ := p
    have hv' := hv
    simp only [evsValid, List.all_cons, Bool.and_eq_true] at hv'
    have hv1 : evValid s.qs.length e = true := hv'.1
    have hvr : evsValid s.qs.length rest = true := hv'.2
    have hq := (step_qs_startT s t e).1
    have hstep := step_curQ_lt s t e h hn hv1
    have ih2 := ih (step s t e) (by rw [hq]; exact hstep) (by rw [hq]; exact hn)
      (by rw [hq]; exact hvr)
    show (runEvents (step s t e) rest).qs = s.qs ∧
      (runEvents (step s t e) rest).curQ < s.qs.length
    rw [← hq]
    exact ih2

/-- C2 as frozen is false on the code: goToQ (the direct-to-index
navigation the grid uses) performs no bounds check, so a request for index
2 on a two-question session is not rejected: it moves curQ out of range and
mutates the state. -/
theorem c2_goToQ_cex :
    (goToQ 1000 2 s2init).curQ = 2 ∧ qs2.length = 2 ∧
    ¬((goToQ 1000 2 s2init).curQ < qs2.length) ∧
    goToQ 1000 2 s2init ≠ s2init := by
  decide

/-- C2 amended: relative navigation (nav) with an out-of-range target is a
complete silent no-op (no flush, no change at all); direct-to-index
navigation has no bounds check, but the grid only creates click handlers
for indices below N, so over every trace of producible triggers the
question list is fixed and curQ stays in [0, N). -/
theorem c2_navigation (s : TestState) (t : Nat) (dir : Int)
    (cfg : Config) (qs : List Question) (t0 : Nat) (evs : List (Nat × Ev))
    (hout : (s.curQ : Int) + dir < 0 ∨ (s.qs.length : Int) ≤ (s.curQ : Int) + dir)
    (hn : 0 < qs.length) (hv : evsValid qs.length evs = true) :
    nav t dir s = s ∧
    (runEvents (initState cfg qs t0) evs).qs = qs ∧
    (runEvents (initState cfg qs t0) evs).curQ < qs.length := by
  refine ⟨?_, ?_, ?_⟩
  . unfold nav
    dsimp only
    rw [if_neg (by omega)]
  . exact (run_curQ_lt evs (initState cfg qs t0) (by simpa [initState] using hn) hn hv).1
  . exact (run_curQ_lt evs (initState cfg qs t0) (by simpa [initState] using hn) hn hv).2

/-- Concrete instance of C2: nav(+1) from the last question of the
two-question session is a strict no-op, and a producible trace that starts,
navigates, answers and submits keeps curQ within [0, 2). -/
theorem c2_navigation_witness :
    nav 50 1 (goToQ 20 1 s2init) = goToQ 20 1 s2init ∧
    (runEvents s2init
      [(1, .startE), (2, .navE 1), (3, .goToQE 0), (4, .subTestE), (5, .navE 1)]).qs = qs2 ∧
    (runEvents s2init
      [(1, .startE), (2, .navE 1), (3, .goToQE 0), (4, .subTestE), (5, .navE 1)]).curQ < qs2.length := by
  have h := c2_navigation (goToQ 20 1 s2init) 50 1 cfg0 qs2 0
    [(1, .startE), (2, .navE 1), (3, .goToQE 0), (4, .subTestE), (5, .navE 1)]
    (by decide) (by decide) (by decide)
  exact ⟨h.1, h.2.1, h.2.2⟩

/-- C3 fails on the code: after the submission at t = 5000 (which flushed
timeSpent to [5, 0] but did not reset lastQTime), the review-mode
navigation at t = 8000 flushes again onto timeSpent[0], raising it to 13 -
the accumulation not only continues after submission, it double-counts the
pre-submission interval and exceeds the 8 wall-clock seconds of the whole
session. -/
theorem c3_post_submit_timing :
    (runEvents s2init [(0, .startE), (5000, .subTestE)]).sub = true ∧
    (runEvents s2init [(0, .startE), (5000, .subTestE)]).timeSpent = [5, 0] ∧
    (runEvents s2init
      [(0, .startE), (5000, .subTestE), (8000, .navE 1)]).timeSpent = [13, 0] ∧
    sumTS (runEvents s2init [(0, .startE), (5000, .subTestE)]) <
      sumTS (runEvents s2init
        [(0, .startE), (5000, .subTestE), (8000, .navE 1)]) ∧
    ((8000 : Rat) - 0) / 1000 <
      sumTS (runEvents s2init
        [(0, .startE), (5000, .subTestE), (8000, .navE 1)]) := by
  decide

/-- Setting slot i to its old value plus a non-negative delta raises the
list sum by at most that delta (exactly, when i is in range; an
out-of-range set is dropped). -/
theorem sum_set_getD_le (l : List Rat) (i : Nat) (d : Rat) (hd : 0 ≤ d) :
    (l.set i (l.getD i 0 + d)).sum ≤ l.sum + d := by
  induction l generalizing i with
  | nil => simpa using hd
  | cons a tl ih =>
    cases i with
    | zero =>
      simp only [List.set_cons_zero, List.getD_cons_zero, List.sum_cons]
      linarith
    | succ n =>
      simp only [List.set_cons_succ, List.getD_cons_succ, List.sum_cons]
      have := ih n
      linarith

/-- The timing effect of loadQ: lastQTime only moves forward, never past
now, and the recorded total grows by at most the flushed interval. -/
theorem loadQ_time (now idx : Nat) (s : TestState) (ht : s.lastQTime ≤ now) :
    s.lastQTime ≤ (loadQ now idx s).lastQTime ∧
    (loadQ now idx s).lastQTime ≤ now ∧
    1000 * sumTS (loadQ now idx s) ≤
      1000 * sumTS s + ((now : Rat) - (s.lastQTime : Rat)) ∧
    1000 * sumTS (loadQ now idx s) ≤
      1000 * sumTS s + (((loadQ now idx s).lastQTime : Rat) - (s.lastQTime : Rat)) := by
  have htQ : (s.lastQTime : Rat) ≤ (now : Rat) := by exact_mod_cast ht
  have hd : (0 : Rat) ≤ ((now : Rat) - (s.lastQTime : Rat)) / 1000 := by
    apply div_nonneg
    . linarith
    . norm_num
  have hmul : (1000 : Rat) * (((now : Rat) - (s.lastQTime : Rat)) / 1000) =
      (now : Rat) - (s.lastQTime : Rat) := by ring
  have hset := sum_set_getD_le s.timeSpent s.curQ
    (((now : Rat) - (s.lastQTime : Rat)) / 1000) hd
  unfold loadQ
  split
  . refine ⟨ht, le_refl now, ?_, ?_⟩ <;>
      (simp only [sumTS]; linarith)
  . refine ⟨le_refl _, ht, ?_, ?_⟩ <;>
      (simp only [sumTS]; linarith)

/-- The timing effect of subTest: lastQTime is left alone (the source does
not reset it) and the recorded total grows by at most the flushed
interval. -/
theorem subTest_time (now : Nat) (s : TestState) (ht : s.lastQTime ≤ now) :
    (subTest now s).lastQTime = s.lastQTime ∧
    1000 * sumTS (subTest now s) ≤
      1000 * sumTS s + ((now : Rat) - (s.lastQTime : Rat)) := by
  have htQ : (s.lastQTime : Rat) ≤ (now : Rat) := by exact_mod_cast ht
  have hd : (0 : Rat) ≤ ((now : Rat) - (s.lastQTime : Rat)) / 1000 := by
    apply div_nonneg
    . linarith
    . norm_num
  have hmul : (1000 : Rat) * (((now : Rat) - (s.lastQTime : Rat)) / 1000) =
      (now : Rat) - (s.lastQTime : Rat) := by ring
  have hset := sum_set_getD_le s.timeSpent s.curQ
    (((now : Rat) - (s.lastQTime : Rat)) / 1000) hd
  by_cases hs : s.sub = true
  . rw [subTest_sub_id now s hs]
    exact ⟨rfl, by linarith⟩
  . rw [subTest_eq now s (by simpa using hs)]
    refine ⟨rfl, ?_⟩
    simp only [sumTS]
    linarith

/-- The per-trigger timing bound: from an unsubmitted state, any trigger at
time t moves lastQTime forward to at most t and adds at most the elapsed
interval to the recorded total; while the result stays unsubmitted the
growth is exactly bounded by the lastQTime advance. -/
theorem step_time (s : TestState) (t : Nat) (e : Ev)
    (_hsub : s.sub = false) (ht : s.lastQTime ≤ t) :
    s.lastQTime ≤ (step s t e).lastQTime ∧
    (step s t e).lastQTime ≤ t ∧
    1000 * sumTS (step s t e) ≤
      1000 * sumTS s + ((t : Rat) - (s.lastQTime : Rat)) ∧
    ((step s t e).sub = false →
      1000 * sumTS (step s t e) ≤
        1000 * sumTS s + (((step s t e).lastQTime : Rat) - (s.lastQTime : Rat))) := by
  have htQ : (s.lastQTime : Rat) ≤ (t : Rat) := by exact_mod_cast ht
  cases e with
  | startE =>
    have h := loadQ_time t 0 (startTimer s) ht
    exact ⟨h.1, h.2.1, h.2.2.1, fun _ => h.2.2.2⟩
  | navE dir =>
    show s.lastQTime ≤ (nav t dir s).lastQTime ∧ (nav t dir s).lastQTime ≤ t ∧
      1000 * sumTS (nav t dir s) ≤
        1000 * sumTS s + ((t : Rat) - (s.lastQTime : Rat)) ∧
      ((nav t dir s).sub = false →
        1000 * sumTS (nav t dir s) ≤
          1000 * sumTS s + (((nav t dir s).lastQTime : Rat) - (s.lastQTime : Rat)))
    unfold nav
    dsimp only
    split
    . have h := loadQ_time t ((s.curQ : Int) + dir).toNat s ht
      exact ⟨h.1, h.2.1, h.2.2.1, fun _ => h.2.2.2⟩
    . exact ⟨le_refl _, ht, by linarith, fun _ => by linarith⟩
  | goToQE idx =>
    have h := loadQ_time t idx s ht
    exact ⟨h.1, h.2.1, h.2.2.1, fun _ => h.2.2.2⟩
  | selOptE o q =>
    have hts := (selOpt_frame o q s).2.2.2.2.2.2.1
    have hlq := (selOpt_frame o q s).2.2.2.2.2.2.2.1
    show s.lastQTime ≤ (selOpt o q s).lastQTime ∧ (selOpt o q s).lastQTime ≤ t ∧
      1000 * sumTS (selOpt o q s) ≤
        1000 * sumTS s + ((t : Rat) - (s.lastQTime : Rat)) ∧
      ((selOpt o q s).sub = false →
        1000 * sumTS (selOpt o q s) ≤
          1000 * sumTS s + (((selOpt o q s).lastQTime : Rat) - (s.lastQTime : Rat)))
    rw [hlq]
    simp only [sumTS, hts]
    exact ⟨le_refl _, ht, by linarith, fun _ => by linarith⟩
  | toggleReviewE =>
    have hts := (toggleReview_frame s).2.2.2.2.2.2.1
    have hlq := (toggleReview_frame s).2.2.2.2.2.2.2.1
    show s.lastQTime ≤ (toggleReview s).lastQTime ∧ (toggleReview s).lastQTime ≤ t ∧
      1000 * sumTS (toggleReview s) ≤
        1000 * sumTS s + ((t : Rat) - (s.lastQTime : Rat)) ∧
      ((toggleReview s).sub = false →
        1000 * sumTS (toggleReview s) ≤
          1000 * sumTS s + (((toggleReview s).lastQTime : Rat) - (s.lastQTime : Rat)))
    rw [hlq]
    simp only [sumTS, hts]
    exact ⟨le_refl _, ht, by linarith, fun _ => by linarith⟩
  | tickE =>
    show s.lastQTime ≤ (tick t s).lastQTime ∧ (tick t s).lastQTime ≤ t ∧
      1000 * sumTS (tick t s) ≤
        1000 * sumTS s + ((t : Rat) - (s.lastQTime : Rat)) ∧
      ((tick t s).sub = false →
        1000 * sumTS (tick t s) ≤
          1000 * sumTS s + (((tick t s).lastQTime : Rat) - (s.lastQTime : Rat)))
    unfold tick
    dsimp only
    split
    . split
      . have h := subTest_time t (stopTimers { s with timeLeft := s.timeLeft - 1 }) ht
        refine ⟨le_of_eq h.1.symm, ?_, h.2, ?_⟩
        . rw [h.1]; exact ht
        . intro hf
          have hsubt := subTest_sub t (stopTimers { s with timeLeft := s.timeLeft - 1 })
          rw [hsubt] at hf
          simp at hf
      . exact ⟨le_refl _, ht, by simp only [sumTS]; linarith,
          fun _ => by simp only [sumTS]; linarith⟩
    . exact ⟨le_refl _, ht, by linarith, fun _ => by linarith⟩
  | subTestE =>
    show s.lastQTime ≤ (subTest t s).lastQTime ∧ (subTest t s).lastQTime ≤ t ∧
      1000 * sumTS (subTest t s) ≤
        1000 * sumTS s + ((t : Rat) - (s.lastQTime : Rat)) ∧
      ((subTest t s).sub = false →
        1000 * sumTS (subTest t s) ≤
          1000 * sumTS s + (((subTest t s).lastQTime : Rat) - (s.lastQTime : Rat)))
    have h := subTest_time t s ht
    refine ⟨le_of_eq h.1.symm, ?_, h.2, ?_⟩
    . rw [h.1]; exact ht
    . intro hf
      have hsubt := subTest_sub t s
      rw [hsubt] at hf
      simp at hf
  | setLangE b =>
    have h := loadQ_time t s.curQ { s with eng := b } ht
    exact ⟨h.1, h.2.1, h.2.2.1, fun _ => h.2.2.2⟩
  | reviewE =>
    have h := loadQ_time t 0 s ht
    exact ⟨h.1, h.2.1, h.2.2.1, fun _ => h.2.2.2⟩

/-- Once submitted, a whole trace stays submitted. -/
theorem run_sub_mono (evs : List (Nat × Ev)) : ∀ s : TestState,
    s.sub = true → (runEvents s evs).sub = true := by
  induction evs with
  | nil => intro s hs; exact hs
  | cons p rest ih =>
    intro s hs
    obtain ⟨t, e⟩ := p
    exact ih (step s t e) (step_sub_mono s t e hs)

/-- The constructor records no time yet. -/
theorem sumTS_init (cfg : Config) (qs : List Question) (t0 : Nat) :
    sumTS (initState cfg qs t0) = 0 := by
  simp [sumTS, initState, List.sum_replicate]

/-- The last trigger time of a cap-bounded trace is at most the cap. -/
theorem lastTimeOf_le (cap : Nat) (evs : List (Nat × Ev)) : ∀ tlo : Nat,
    timesLEb cap evs = true → tlo ≤ cap → lastTimeOf tlo evs ≤ cap := by
  induction evs with
  | nil => intro tlo _ h; exact h
  | cons p rest ih =>
    intro tlo hle h
    obtain ⟨t, e⟩ := p
    simp only [timesLEb, List.all_cons, Bool.and_eq_true, decide_eq_true_eq] at hle
    exact ih t hle.2 hle.1

/-- The running timing invariant: as long as the trace ends unsubmitted,
the construction timestamp is kept, lastQTime never passes the last trigger
time, and the recorded total grows by at most the lastQTime advance. -/
theorem run_time_inv (evs : List (Nat × Ev)) : ∀ (s : TestState) (tlo : Nat),
    s.lastQTime ≤ tlo → timesOKb tlo evs = true →
    (runEvents s evs).sub = false →
    (runEvents s evs).startT = s.startT ∧
    (runEvents s evs).lastQTime ≤ lastTimeOf tlo evs ∧
    1000 * sumTS (runEvents s evs) ≤
      1000 * sumTS s + (((runEvents s evs).lastQTime : Rat) - (s.lastQTime : Rat)) := by
  induction evs with
  | nil =>
    intro s tlo hlast _ _
    refine ⟨rfl, hlast, ?_⟩
    show (1000 : Rat) * sumTS s ≤
      1000 * sumTS s + ((s.lastQTime : Rat) - (s.lastQTime : Rat))
    linarith
  | cons p rest ih =>
    intro s tlo hlast htimes hfinal
    obtain ⟨t, e⟩ := p
    simp only [timesOKb, Bool.and_eq_true, decide_eq_true_eq] at htimes
    have hsub_s : s.sub = false := by
      cases hcase : s.sub
      . rfl
      . exfalso
        have hrun := run_sub_mono ((t, e) :: rest) s hcase
        rw [hrun] at hfinal
        simp at hfinal
    have hfinal' : (runEvents (step s t e) rest).sub = false := hfinal
    have hsub_step : (step s t e).sub = false := by
      cases hcase : (step s t e).sub
      . rfl
      . exfalso
        have hrun := run_sub_mono rest (step s t e) hcase
        rw [hrun] at hfinal'
        simp at hfinal'
    simp only [runEvents]
    have hstep := step_time s t e hsub_s (le_trans hlast htimes.1)
    have hsum_step := hstep.2.2.2 hsub_step
    have hrec := ih (step s t e) t hstep.2.1 htimes.2 hfinal'
    refine ⟨hrec.1.trans (step_qs_startT s t e).2, hrec.2.1, ?_⟩
    have h1 := hrec.2.2
    have hlq1 : ((step s t e).lastQTime : Rat) ≤ (t : Rat) := by
      exact_mod_cast hstep.2.1
    have hlq0 : (s.lastQTime : Rat) ≤ ((step s t e).lastQTime : Rat) := by
      exact_mod_cast hstep.1
    linarith

/-- C6: no double counting across flushes. For any trace of triggers with
non-decreasing times between t0 (construction) and cap, as long as the
session is unsubmitted the recorded per-question total (in milliseconds)
never exceeds the elapsed wall-clock time cap - t0; and one further trigger
at a time t up to cap - in particular the submitting one, whose subTest
flush ends the accounting - still respects the same bound. -/
theorem c6_time_accounting (cfg : Config) (qs : List Question)
    (t0 cap t : Nat) (e : Ev) (evs : List (Nat × Ev))
    (hmono : timesOKb t0 evs = true) (hle : timesLEb cap evs = true)
    (h0 : t0 ≤ cap) (hlast : lastTimeOf t0 evs ≤ t) (htcap : t ≤ cap) :
    ((runEvents (initState cfg qs t0) evs).sub = false →
      1000 * sumTS (runEvents (initState cfg qs t0) evs) ≤
        (cap : Rat) - (t0 : Rat)) ∧
    ((runEvents (initState cfg qs t0) evs).sub = false →
      1000 * sumTS (step (runEvents (initState cfg qs t0) evs) t e) ≤
        (cap : Rat) - (t0 : Rat)) := by
  have hinit_last : (initState cfg qs t0).lastQTime = t0 := rfl
  have hinit_sum : sumTS (initState cfg qs t0) = 0 := sumTS_init cfg qs t0
  have hlt_cap : lastTimeOf t0 evs ≤ cap := lastTimeOf_le cap evs t0 hle h0
  constructor
  . intro hsub
    have hinv := run_time_inv evs (initState cfg qs t0) t0 (le_of_eq hinit_last)
      hmono hsub
    have hlqF : ((runEvents (initState cfg qs t0) evs).lastQTime : Rat) ≤
        (cap : Rat) := by
      exact_mod_cast le_trans hinv.2.1 hlt_cap
    have ht0 : ((initState cfg qs t0).lastQTime : Rat) = (t0 : Rat) := by
      rw [hinit_last]
    have hsum := hinv.2.2
    rw [hinit_sum, ht0] at hsum
    linarith
  . intro hsub
    have hinv := run_time_inv evs (initState cfg qs t0) t0 (le_of_eq hinit_last)
      hmono hsub
    have hlq_le_t : (runEvents (initState cfg qs t0) evs).lastQTime ≤ t :=
      le_trans hinv.2.1 hlast
    have hstep := step_time (runEvents (initState cfg qs t0) evs) t e hsub hlq_le_t
    have ht0 : ((initState cfg qs t0).lastQTime : Rat) = (t0 : Rat) := by
      rw [hinit_last]
    have hsum := hinv.2.2
    rw [hinit_sum, ht0] at hsum
    have htQ : ((runEvents (initState cfg qs t0) evs).lastQTime : Rat) ≤
        (t : Rat) := by exact_mod_cast hlq_le_t
    have htc : (t : Rat) ≤ (cap : Rat) := by exact_mod_cast htcap
    have hgrow := hstep.2.2.1
    linarith

/-- A concrete run of C6: start at 0, move to question 1 at t = 3000
(3 recorded seconds), then submit at t = 9000 within a 10-second window:
both before and at the submitting step the recorded total respects the
elapsed-time bound. -/
theorem c6_time_accounting_witness :
    timesOKb 0 [(0, .startE), (3000, .navE 1)] = true ∧
    timesLEb 10000 [(0, .startE), (3000, .navE 1)] = true ∧
    (runEvents (initState cfg0 qs2 0) [(0, .startE), (3000, .navE 1)]).sub = false ∧
    1000 * sumTS (runEvents (initState cfg0 qs2 0)
      [(0, .startE), (3000, .navE 1)]) ≤ (10000 : Rat) - (0 : Rat) ∧
    1000 * sumTS (step (runEvents (initState cfg0 qs2 0)
      [(0, .startE), (3000, .navE 1)]) 9000 .subTestE) ≤
      (10000 : Rat) - (0 : Rat) := by
  have h := c6_time_accounting cfg0 qs2 0 10000 9000 .subTestE
    [(0, .startE), (3000, .navE 1)] (by decide) (by decide) (by decide)
    (by decide) (by decide)
  exact ⟨by decide, by decide, by decide, h.1 (by decide), h.2 (by decide)⟩

end TestApp
